import Mathlib

/-!
Verification of the JSON-to-C++ code generator in `src/experiments/compiler.py`
(repository FssFMI).  The generator translates a JSON-described imperative
program into C++ source text, threading a "required output variable" (ROV)
through nested control structures.

Shallow embedding notes.
* Python dict-based instructions become the inductive `Instr`; instruction
  lists become the (mutually inductive) `IList` so that all recursion is
  structural.  Well-formedness assumed by the Python code (required keys
  present, values of the right shape) is built into the constructors.
* Python string truthiness (`if x:` where `x` is `None` or a string) is
  modelled by `strTruthy` on `Option String`: `None` and `""` are falsy.
* The Python functions build indented strings directly.  Here
  `generate_instruction` produces one structured statement (`CStmt`) per
  instruction, and `renderStmt`/`renderCList` reproduce the exact string
  assembly (f-strings, `"\n".join`, `indent_code`) of the source, so that the
  composition yields the same text the Python code builds.
-/

namespace Compiler

/-- A JSON scalar used as a value expression: a number or a string.
`compiler.py` (`is_numeric`/`generate_value`) renders numbers via `str(val)`
and returns strings unchanged (for a string `val`, `str(val) = val`, so both
arms of the Python `if` coincide).  Floats are not modelled, only integers. -/
inductive Value where
  | num (n : Int)
  | str (s : String)

/-- `generate_value` from compiler.py: convert a JSON value (number or
string) into a C++ expression fragment. -/
def generate_value : Value → String
  | .num n => toString n
  | .str s => s

/-- A condition triple `{lhs, op, rhs}` as consumed by `generate_condition`. -/
structure Cond where
  lhs : Value
  op : String
  rhs : Value

/-- `generate_condition` from compiler.py: render `"{lhs} {op} {rhs}"`. -/
def generate_condition (c : Cond) : String :=
  generate_value c.lhs ++ " " ++ c.op ++ " " ++ generate_value c.rhs

/-- `indent_code` from compiler.py: indent each line of `code` by `level`
spaces, dropping whitespace-only lines. -/
def indent_code (code : String) (level : Nat) : String :=
  let indentation := String.mk (List.replicate level ' ')
  String.intercalate "\n"
    (((code.splitOn "\n").filter (fun line => line.trim ≠ "")).map
      (fun line => indentation ++ line))

mutual
/-- An instruction node (a Python dict with a `"type"` tag).
`name` fields are `Option String`: `none` means the key is absent.
For `ifI`, `thn`/`els` model `instr.get("then", [])` / `instr.get("else", [])`
(an absent key and an explicitly empty list behave identically in the
source, both being falsy/empty). `unknown` stands for any dict whose
`"type"` is none of the four recognized kinds. -/
inductive Instr where
  | assign (name : String) (value : Value)
  | call (name : Option String) (function : String) (args : List Value)
  | ifI (name : Option String) (condition : Cond) (thn : IList) (els : IList)
  | forI (initName : String) (initValue : Value) (condition : Cond)
      (update : String) (body : IList)
  | unknown (itype : String)

/-- A list of instructions (a `Block`).  A bespoke list type mutually
inductive with `Instr`, so the generator recursions below are structural. -/
inductive IList where
  | nil
  | cons (i : Instr) (rest : IList)
end

/-- `true` iff the instruction list is empty (Python: `if else_block:`). -/
def isNil : IList → Bool
  | .nil => true
  | .cons _ _ => false

/-- Append a single instruction at the end of a list (used to state claims
about "the last instruction" of a block). -/
def snocI : IList → Instr → IList
  | .nil, i => .cons i .nil
  | .cons j rest, i => .cons j (snocI rest i)

/-- Python truthiness for an optional string: `None` and `""` are falsy. -/
def strTruthy : Option String → Bool
  | none => false
  | some s => s ≠ ""

/-- `x if x else None`: keep a truthy optional string, drop a falsy one. -/
def truthyOpt (o : Option String) : Option String :=
  if strTruthy o then o else none

mutual
/-- One generated statement, at the granularity of one instruction of the
source language (plus the block-level `fallback`).  Fields carry exactly the
data the Python f-strings interpolate; `renderStmt` reassembles the text.
For `ifS`: `declVar` is the optional `uint32_t v;` declaration line emitted
before the conditional; `els = CList.nil` means no `else` branch was emitted
(the source emits one only for a nonempty else-list, and a generated branch
is never an empty statement list); `post` is the optional bridging
assignment `forced = if_var;` appended after the conditional. -/
inductive CStmt where
  | decl (name val : String)
  | assignS (name val : String)
  | bare (code : String)
  | ifS (declVar : Option String) (cond : String) (thn : CList) (els : CList)
      (post : Option (String × String))
  | forS (init cond update : String) (body : CList)
  | commentUnknown (itype : String)
  | fallback (name : String)

/-- The `code_lines` list built by `generate_block`. -/
inductive CList where
  | nil
  | cons (s : CStmt) (rest : CList)
end

/-- Append two statement lists. -/
def cappend : CList → CList → CList
  | .nil, b => b
  | .cons s rest, b => .cons s (cappend rest b)

/-- The fallback branch at the end of `generate_block` (compiler.py lines
91-93): `if final_var and (last_assigned != final_var):` append
`"{final_var} = 0;  // fallback if never assigned"`.  The reported
last-assigned variable is returned unchanged in both cases. -/
def add_fallback (final_var : Option String) (r : CList × Option String) :
    CList × Option String :=
  match final_var with
  | some v =>
      if v ≠ "" ∧ r.2 ≠ some v then
        (cappend r.1 (.cons (.fallback v) .nil), r.2)
      else r
  | none => r

mutual
/-- `generate_instruction` from compiler.py: generate the statement for a
single instruction given the forced variable handed down by the enclosing
block.  Returns the statement and the reported last-assigned variable.
The nested calls `add_fallback v (gen_instrs b v)` are the source's calls
`generate_block(b, indent_level, final_var=v)` (see `generate_block`). -/
def generate_instruction : Instr → Option String → CStmt × Option String
  | .assign var_name value, forced_var =>
      match truthyOpt forced_var with
      | some f => (.assignS f (generate_value value), some f)
      | none => (.decl var_name (generate_value value), some var_name)
  | .call var_name func_name args, forced_var =>
      let joined_args := String.intercalate ", " (args.map generate_value)
      match truthyOpt forced_var with
      | some f => (.assignS f (func_name ++ "(" ++ joined_args ++ ")"), some f)
      | none =>
          match truthyOpt var_name with
          | some v => (.decl v (func_name ++ "(" ++ joined_args ++ ")"), some v)
          | none => (.bare (func_name ++ "(" ++ joined_args ++ ");"), none)
  | .ifI if_var condition then_block else_block, forced_var =>
      let condition_str := generate_condition condition
      let local_if_var := if strTruthy if_var then if_var else forced_var
      let then_code := (add_fallback local_if_var
        (gen_instrs then_block local_if_var)).1
      let else_code :=
        if isNil else_block then CList.nil
        else (add_fallback local_if_var
          (gen_instrs else_block local_if_var)).1
      let final_name := if strTruthy if_var then if_var else forced_var
      let post : Option (String × String) :=
        match truthyOpt forced_var, truthyOpt if_var with
        | some f, some n => if f ≠ n then some (f, n) else none
        | _, _ => none
      (.ifS (truthyOpt local_if_var) condition_str then_code else_code post,
       final_name)
  | .forI init_name init_value condition update body, forced_var =>
      let init_str :=
        "uint32_t " ++ init_name ++ " = " ++ generate_value init_value ++ ";"
      let cond_str := generate_condition condition
      let r := add_fallback forced_var (gen_instrs body forced_var)
      (.forS init_str cond_str update r.1,
       if strTruthy forced_var then forced_var else r.2)
  | .unknown itype, _ => (.commentUnknown itype, none)

/-- The instruction loop of `generate_block` (compiler.py lines 72-86):
every instruction except the last is generated with no forced variable; the
last receives `final_var` when it is truthy.  The second component is
`last_assigned`: the reported variable of the latest instruction whose
report was truthy (`if sub_assigned:`), `none` if there was none. -/
def gen_instrs : IList → Option String → CList × Option String
  | .nil, _ => (.nil, none)
  | .cons i .nil, final_var =>
      let forced_var := if strTruthy final_var then final_var else none
      let r := generate_instruction i forced_var
      (.cons r.1 .nil, if strTruthy r.2 then r.2 else none)
  | .cons i (.cons j rest), final_var =>
      let r := generate_instruction i none
      let rr := gen_instrs (.cons j rest) final_var
      (.cons r.1 rr.1,
       if strTruthy rr.2 then rr.2
       else if strTruthy r.2 then r.2 else none)
end

/-- `generate_block` from compiler.py: run the instruction loop, then append
the fallback assignment if a truthy `final_var` was requested but the
reported last-assigned variable differs from it. -/
def generate_block (instructions : IList) (final_var : Option String) :
    CList × Option String :=
  add_fallback final_var (gen_instrs instructions final_var)

mutual
/-- Reassemble the exact text `generate_instruction` builds for one
statement (all call sites in the source pass `indent_level = 4`).  Braces
are written with `\x7b`/`\x7d` escapes for `{`/`}`. -/
def renderStmt : CStmt → String
  | .decl name val => indent_code ("uint32_t " ++ name ++ " = " ++ val ++ ";") 4
  | .assignS name val => indent_code (name ++ " = " ++ val ++ ";") 4
  | .bare code => indent_code code 4
  | .ifS declVar cond thn els post =>
      let code_list : List String :=
        (match declVar with
         | some v => ["uint32_t " ++ v ++ ";"]
         | none => [])
        ++ ["if (" ++ cond ++ ") \x7b", renderCList thn, "\x7d"]
        ++ (match els with
            | .nil => []
            | .cons s rest => ["else \x7b", renderCList (.cons s rest), "\x7d"])
      let full := indent_code (String.intercalate "\n" code_list) 4
      match post with
      | some fn => full ++ "\n" ++ indent_code (fn.1 ++ " = " ++ fn.2 ++ ";") 4
      | none => full
  | .forS init cond update body =>
      indent_code (String.intercalate "\n"
        ["for (" ++ init ++ " " ++ cond ++ "; " ++ update ++ ") \x7b",
         renderCList body, "\x7d"]) 4
  | .commentUnknown itype =>
      indent_code ("// Unknown instruction type: " ++ itype) 4
  | .fallback name => name ++ " = 0;  // fallback if never assigned"

/-- `"\n".join(code_lines)` over a list of generated statements. -/
def renderCList : CList → String
  | .nil => ""
  | .cons s .nil => renderStmt s
  | .cons s (.cons t rest) => renderStmt s ++ "\n" ++ renderCList (.cons t rest)
end

/-- The per-instruction check inside `find_final_variable`: the name the
scan would return for this instruction, `none` if the scan skips it.
(`"name" in instr` is key presence: `assign` always carries a name; for
`call` and `if` the optional field must be present.) -/
def instrFinalName : Instr → Option String
  | .assign n _ => some n
  | .call n _ _ => n
  | .ifI n _ _ _ => n
  | .forI _ _ _ _ _ => none
  | .unknown _ => none

/-- `find_final_variable` from compiler.py: scan the top-level instruction
list backward (no recursion into nested blocks) for the last `assign`,
`call`, or `if` carrying a `name` key, returning that name. -/
def find_final_variable : IList → Option String
  | .nil => none
  | .cons i rest =>
      match find_final_variable rest with
      | some v => some v
      | none => instrFinalName i

/-- The include list of `generate_cpp_prefix`. -/
def includesList : List String :=
  ["<iostream>", "<functional>", "<map>", "<string>", "<vector>",
   "\"../comm/comm.hpp\"", "\"../tools/random_number_generator.hpp\"",
   "\"../tools/secret_sharing.hpp\"", "\"../tools/tools.hpp\"",
   "\"../utils/logger.hpp\"", "\"../utils/utils.hpp\"",
   "\"add.hpp\"", "\"mult.hpp\"", "\"fssgate.hpp\""]

/-- `generate_cpp_prefix` from compiler.py (renamed: the source name is not
usable here): one `#include` line per entry, then a blank line. -/
def generate_cpp_preamble : String :=
  String.join (includesList.map (fun inc => "#include " ++ inc ++ "\n")) ++ "\n"

/-- `generate_cpp_main` from compiler.py: generate the entry block with no
forced variable, pick the final variable (the block's reported variable if
truthy, else the backward scan, each checked for truthiness), and emit the
`main` function text. -/
def generate_cpp_main (program : IList) : String :=
  let r := generate_block program none
  let final_var :=
    if strTruthy r.2 then r.2 else find_final_variable program
  "int main() \x7b\n" ++ renderCList r.1 ++ "\n" ++
  (match truthyOpt final_var with
   | some v => "    return " ++ v ++ ";\n"
   | none => "    return 0;\n") ++
  "\x7d\n"

/-- The value of the `"program"` member of the top-level JSON object.
`instrs il` models a JSON array of well-formed instruction dicts (an empty
iterable such as `""` or `{}` behaves like the empty list and is modelled
as `instrs IList.nil`).  `malformed` models any other value: traversing it
(`enumerate`/`len`, or `instr["type"]` on its elements) raises an uncaught
TypeError/KeyError in the source before any file is written. -/
inductive ProgramField where
  | instrs (il : IList)
  | malformed

/-- A parsed top-level JSON document, as far as `compiler`/`generate_code`
inspect it.  `nonObj truthy` is any non-dict JSON value (`null`, a bool, a
number, a string, an array) together with its Python truthiness;
`json_data.get` on such a value raises AttributeError.  `obj other program`
is a dict: `other` records whether it has keys besides `"program"` (for
truthiness), `program` its optional `"program"` member. -/
inductive JsonDoc where
  | nonObj (truthy : Bool)
  | obj (otherKeys : Bool) (program : Option ProgramField)

/-- Python truthiness of a parsed document (`if not data:`): a non-dict
value by its own truthiness, a dict iff it has at least one key. -/
def docTruthy : JsonDoc → Bool
  | .nonObj t => t
  | .obj other program => other || program.isSome

/-- Outcome of `generate_code`: the produced source text, or an uncaught
exception raised while traversing a malformed document. -/
inductive GenResult where
  | written (text : String)
  | crash

/-- `generate_code` from compiler.py: `program = json_data.get("program", [])`
(AttributeError on a non-dict), then preamble plus `main`. -/
def generate_code : JsonDoc → GenResult
  | .nonObj _ => .crash
  | .obj _ program =>
      match program with
      | none => .written (generate_cpp_preamble ++ generate_cpp_main .nil)
      | some (.instrs il) =>
          .written (generate_cpp_preamble ++ generate_cpp_main il)
      | some .malformed => .crash

/-- Observable outcome of one call to `compiler`:
whether `parse_json` reported a JSON decode error, the content written to
`generated_code.cpp` (`none` = no file written), and whether an uncaught
exception escaped.  `compiler` is called once per input; there is no retry. -/
structure CompilerResult where
  reportedParseError : Bool
  output : Option String
  crashed : Bool

/-- `parse_json` from compiler.py.  The external `json.loads` is abstracted
by the argument: `none` stands for an input string that is not syntactically
valid JSON (the `JSONDecodeError` branch prints the error and returns
`None`), `some d` for a successful parse to `d`.  Returns the parse result
together with whether the error branch ran. -/
def parse_json : Option JsonDoc → Option JsonDoc × Bool
  | none => (none, true)
  | some d => (some d, false)

/-- `compiler` from compiler.py: parse, return early (`if not data:`) on a
`None` or falsy parse result, otherwise generate and write the code. -/
def compiler (jsonInput : Option JsonDoc) : CompilerResult :=
  let p := parse_json jsonInput
  match p.1 with
  | none => ⟨p.2, none, false⟩
  | some data =>
      if docTruthy data then
        match generate_code data with
        | .written text => ⟨p.2, some text, false⟩
        | .crash => ⟨p.2, none, true⟩
      else ⟨p.2, none, false⟩

/-! ### Path analysis of the emitted statements

The following predicates formalize the spec's notion of "assigned on every
execution path" over the emitted statements.  A statement *assigns* `V`
when it is a declaration with initializer, a plain assignment, or the
fallback, targeting `V`.  An execution path through a statement list passes
through every statement in order; at an `if` it takes the then-branch or
the else-branch (or falls through when no else was emitted) and then runs
the bridging post-assignment; a `for` loop may run zero iterations. -/

mutual
/-- Every execution path through this statement assigns `V`. -/
def stmtAssigns (V : String) : CStmt → Bool
  | .decl n _ => n == V
  | .assignS n _ => n == V
  | .bare _ => false
  | .ifS _ _ thn els post =>
      (match post with | some fn => fn.1 == V | none => false)
      || (clistAssigns V thn && clistAssigns V els)
  | .forS _ _ _ _ => false
  | .commentUnknown _ => false
  | .fallback n => n == V

/-- Every execution path through this statement list assigns `V` (the list
for an absent else-branch is `nil`, on which this is `false`: the
fall-through path assigns nothing). -/
def clistAssigns (V : String) : CList → Bool
  | .nil => false
  | .cons s rest => stmtAssigns V s || clistAssigns V rest
end

mutual
/-- Some execution path through this statement avoids every assignment to
`V` (the exact complement of `stmtAssigns`; a `for` loop is avoided by the
zero-iteration path). -/
def stmtCanAvoid (V : String) : CStmt → Bool
  | .decl n _ => n != V
  | .assignS n _ => n != V
  | .bare _ => true
  | .ifS _ _ thn els post =>
      (match post with | some fn => fn.1 != V | none => true)
      && (clistCanAvoid V thn || clistCanAvoid V els)
  | .forS _ _ _ _ => true
  | .commentUnknown _ => true
  | .fallback n => n != V

/-- Some execution path through this statement list avoids assigning `V`. -/
def clistCanAvoid (V : String) : CList → Bool
  | .nil => true
  | .cons s rest => stmtCanAvoid V s && clistCanAvoid V rest
end

mutual
/-- The emitted text contains, anywhere (reachably or not), an assignment
to `V`: a declaration with initializer, an assignment, a bridging
post-assignment, or a fallback targeting `V`. -/
def stmtContainsAssign (V : String) : CStmt → Bool
  | .decl n _ => n == V
  | .assignS n _ => n == V
  | .bare _ => false
  | .ifS _ _ thn els post =>
      (match post with | some fn => fn.1 == V | none => false)
      || clistContainsAssign V thn || clistContainsAssign V els
  | .forS _ _ _ body => clistContainsAssign V body
  | .commentUnknown _ => false
  | .fallback n => n == V

/-- Some statement of the list contains an assignment to `V`. -/
def clistContainsAssign (V : String) : CList → Bool
  | .nil => false
  | .cons s rest => stmtContainsAssign V s || clistContainsAssign V rest
end

/-- The statements of a list of instructions, each generated with no forced
variable — the code `generate_block` emits for every instruction except the
last (derived definition, used only to state the block decomposition). -/
def unforcedCode : IList → CList
  | .nil => .nil
  | .cons i rest => .cons (generate_instruction i none).1 (unforcedCode rest)

/-- The `last_assigned` value the block loop reaches over a list of
instructions all generated with no forced variable: the report of the
latest instruction whose report was truthy (derived definition, used only
to state the block decomposition). -/
def unforcedLast : IList → Option String
  | .nil => none
  | .cons i rest =>
      let r := unforcedLast rest
      if strTruthy r then r
      else if strTruthy (generate_instruction i none).2
           then (generate_instruction i none).2 else none

/-! ### Helper lemmas -/

mutual
/-- Sanity: `stmtAssigns` and `stmtCanAvoid` are exact complements, so
"every path assigns V" and "some path avoids V" negate each other under
the path semantics above. -/
theorem stmtAssigns_eq_not_canAvoid (V : String) (s : CStmt) :
    stmtAssigns V s = !stmtCanAvoid V s := by
  cases s with
  | decl n v => simp [stmtAssigns, stmtCanAvoid, bne]
  | assignS n v => simp [stmtAssigns, stmtCanAvoid, bne]
  | bare c => simp [stmtAssigns, stmtCanAvoid]
  | ifS d c thn els post =>
      have h1 := clistAssigns_eq_not_canAvoid V thn
      have h2 := clistAssigns_eq_not_canAvoid V els
      cases post with
      | none =>
          simp [stmtAssigns, stmtCanAvoid, h1, h2]
      | some fn =>
          simp [stmtAssigns, stmtCanAvoid, h1, h2, bne, Bool.not_and,
            Bool.not_or]
  | forS i c u b => simp [stmtAssigns, stmtCanAvoid]
  | commentUnknown t => simp [stmtAssigns, stmtCanAvoid]
  | fallback n => simp [stmtAssigns, stmtCanAvoid, bne]

/-- Sanity: list-level complement of the two path predicates. -/
theorem clistAssigns_eq_not_canAvoid (V : String) (c : CList) :
    clistAssigns V c = !clistCanAvoid V c := by
  cases c with
  | nil => rfl
  | cons s rest =>
      simp [clistAssigns, clistCanAvoid, stmtAssigns_eq_not_canAvoid V s,
        clistAssigns_eq_not_canAvoid V rest, Bool.not_and]
end

theorem clistAssigns_cappend (V : String) (a b : CList) :
    clistAssigns V (cappend a b) = (clistAssigns V a || clistAssigns V b) := by
  cases a with
  | nil => simp [cappend, clistAssigns]
  | cons s rest =>
      simp [cappend, clistAssigns, clistAssigns_cappend V rest b, Bool.or_assoc]

theorem clistContainsAssign_cappend (V : String) (a b : CList) :
    clistContainsAssign V (cappend a b)
      = (clistContainsAssign V a || clistContainsAssign V b) := by
  cases a with
  | nil => simp [cappend, clistContainsAssign]
  | cons s rest =>
      simp [cappend, clistContainsAssign,
        clistContainsAssign_cappend V rest b, Bool.or_assoc]

theorem add_fallback_snd (fv : Option String) (r : CList × Option String) :
    (add_fallback fv r).2 = r.2 := by
  cases fv with
  | none => rfl
  | some v =>
      simp only [add_fallback]
      split <;> rfl

theorem add_fallback_not_truthy (fv : Option String)
    (r : CList × Option String) (h : strTruthy fv = false) :
    add_fallback fv r = r := by
  cases fv with
  | none => rfl
  | some v =>
      simp only [strTruthy, ne_eq, decide_eq_true_eq] at h
      simp only [add_fallback]
      split
      · next hc => exact absurd hc.1 (by simpa using h)
      · rfl

theorem add_fallback_no_change (v : String) (r : CList × Option String)
    (h : r.2 = some v) : add_fallback (some v) r = r := by
  simp only [add_fallback]
  split
  · next hc => exact absurd h hc.2
  · rfl

theorem add_fallback_appends (v : String) (r : CList × Option String)
    (hv : v ≠ "") (h : r.2 ≠ some v) :
    add_fallback (some v) r = (cappend r.1 (.cons (.fallback v) .nil), r.2) := by
  simp only [add_fallback]
  split
  · rfl
  · next hc => exact absurd ⟨hv, h⟩ hc

theorem truthyFilter_ok (o : Option String) :
    (if strTruthy o = true then o else none) = none ∨
    strTruthy (if strTruthy o = true then o else none) = true := by
  by_cases h : strTruthy o = true
  · right; simp [h]
  · left; simp [h]

theorem truthyFilter2_ok (a b : Option String) :
    (if strTruthy a = true then a
     else if strTruthy b = true then b else none) = none ∨
    strTruthy (if strTruthy a = true then a
     else if strTruthy b = true then b else none) = true := by
  by_cases ha : strTruthy a = true
  · right; simp [ha]
  · simp only [if_neg ha]
    exact truthyFilter_ok b

/-- `last_assigned` as computed by the block loop is `none` or truthy. -/
theorem gen_instrs_snd_truthy (il : IList) (fv : Option String) :
    (gen_instrs il fv).2 = none ∨ strTruthy (gen_instrs il fv).2 = true := by
  cases il with
  | nil => left; rfl
  | cons i rest =>
      cases rest with
      | nil => exact truthyFilter_ok _
      | cons j rest2 => exact truthyFilter2_ok _ _

theorem snocI_shape (l : IList) (i : Instr) :
    ∃ k t, snocI l i = .cons k t := by
  cases l with
  | nil => exact ⟨i, .nil, rfl⟩
  | cons j rest => exact ⟨j, snocI rest i, rfl⟩

/-- Block-loop decomposition, code part: in `gen_instrs` over a list with
last element `i`, every earlier instruction is generated with no forced
variable and `i` with `final_var` (when truthy). -/
theorem gen_instrs_snoc_fst (l : IList) (i : Instr) (fv : Option String) :
    (gen_instrs (snocI l i) fv).1 =
      cappend (unforcedCode l)
        (.cons (generate_instruction i
          (if strTruthy fv then fv else none)).1 .nil) := by
  cases l with
  | nil => rfl
  | cons j rest =>
      obtain ⟨k, t, hk⟩ := snocI_shape rest i
      have hsnoc : snocI (IList.cons j rest) i = .cons j (.cons k t) := by
        rw [snocI, hk]
      rw [hsnoc]
      have ih := gen_instrs_snoc_fst rest i fv
      rw [hk] at ih
      show CList.cons (generate_instruction j none).1
          (gen_instrs (.cons k t) fv).1 = _
      rw [ih]
      rfl

/-- Block-loop decomposition, `last_assigned` part. -/
theorem gen_instrs_snoc_snd (l : IList) (i : Instr) (fv : Option String) :
    (gen_instrs (snocI l i) fv).2 =
      (if strTruthy (generate_instruction i
            (if strTruthy fv then fv else none)).2 = true
       then (generate_instruction i (if strTruthy fv then fv else none)).2
       else unforcedLast l) := by
  cases l with
  | nil => rfl
  | cons j rest =>
      obtain ⟨k, t, hk⟩ := snocI_shape rest i
      have hsnoc : snocI (IList.cons j rest) i = .cons j (.cons k t) := by
        rw [snocI, hk]
      rw [hsnoc]
      have ih := gen_instrs_snoc_snd rest i fv
      rw [hk] at ih
      show (if strTruthy (gen_instrs (.cons k t) fv).2 = true
            then (gen_instrs (.cons k t) fv).2
            else if strTruthy (generate_instruction j none).2 = true
                 then (generate_instruction j none).2 else none) = _
      rw [ih]
      by_cases hli : strTruthy (generate_instruction i
          (if strTruthy fv then fv else none)).2 = true
      · simp [hli]
      · simp only [if_neg hli]
        rfl

mutual
/-- If an instruction reports a nonempty variable `V` as produced, its
generated statement contains (somewhere in its text) an assignment to `V`. -/
theorem generate_instruction_contains (i : Instr) (fv : Option String)
    (V : String) (hV : V ≠ "")
    (h : (generate_instruction i fv).2 = some V) :
    stmtContainsAssign V (generate_instruction i fv).1 = true := by
  cases i with
  | assign n v =>
      simp only [generate_instruction] at h ⊢
      cases htf : truthyOpt fv with
      | some f =>
          rw [htf] at h
          have h2 : f = V := Option.some.inj h
          subst h2
          show stmtContainsAssign f (CStmt.assignS f (generate_value v)) = true
          simp [stmtContainsAssign]
      | none =>
          rw [htf] at h
          have h2 : n = V := Option.some.inj h
          subst h2
          show stmtContainsAssign n (CStmt.decl n (generate_value v)) = true
          simp [stmtContainsAssign]
  | call n fn args =>
      simp only [generate_instruction] at h ⊢
      cases htf : truthyOpt fv with
      | some f =>
          rw [htf] at h
          have h2 : f = V := Option.some.inj h
          subst h2
          show stmtContainsAssign f (CStmt.assignS f
            (fn ++ "(" ++ String.intercalate ", " (args.map generate_value)
              ++ ")")) = true
          simp [stmtContainsAssign]
      | none =>
          rw [htf] at h
          cases htn : truthyOpt n with
          | some w =>
              rw [htn] at h
              have h2 : w = V := Option.some.inj h
              subst h2
              show stmtContainsAssign w (CStmt.decl w
                (fn ++ "(" ++ String.intercalate ", " (args.map generate_value)
                  ++ ")")) = true
              simp [stmtContainsAssign]
          | none =>
              rw [htn] at h
              exact Option.noConfusion h
  | ifI if_var condition then_block else_block =>
      have hloc : (if strTruthy if_var = true then if_var else fv) = some V := h
      show stmtContainsAssign V (CStmt.ifS
        (truthyOpt (if strTruthy if_var = true then if_var else fv))
        (generate_condition condition)
        (add_fallback (if strTruthy if_var = true then if_var else fv)
          (gen_instrs then_block
            (if strTruthy if_var = true then if_var else fv))).1
        (if isNil else_block = true then CList.nil
         else (add_fallback (if strTruthy if_var = true then if_var else fv)
           (gen_instrs else_block
             (if strTruthy if_var = true then if_var else fv))).1)
        (match truthyOpt fv, truthyOpt if_var with
         | some f, some m => if f ≠ m then some (f, m) else none
         | _, _ => none)) = true
      rw [hloc]
      have hthn := generate_block_contains then_block V hV
      unfold generate_block at hthn
      simp [stmtContainsAssign, hthn]
  | forI init_name init_value condition update body =>
      have hrep : (if strTruthy fv = true then fv
          else (add_fallback fv (gen_instrs body fv)).2) = some V := h
      show stmtContainsAssign V (CStmt.forS
        ("uint32_t " ++ init_name ++ " = " ++ generate_value init_value ++ ";")
        (generate_condition condition) update
        (add_fallback fv (gen_instrs body fv)).1) = true
      by_cases hf : strTruthy fv = true
      · rw [if_pos hf] at hrep
        subst hrep
        have hb := generate_block_contains body V hV
        unfold generate_block at hb
        simp [stmtContainsAssign, hb]
      · rw [if_neg hf] at hrep
        rw [add_fallback_snd] at hrep
        have hb := gen_instrs_contains body fv V hV hrep
        rw [add_fallback_not_truthy fv _ (by simpa using hf)]
        simp [stmtContainsAssign, hb]
  | unknown t => exact absurd h (by simp [generate_instruction])
termination_by (sizeOf i, 0)

/-- If the block loop over `il` reports a nonempty `last_assigned = V`, the
generated statement list contains an assignment to `V`. -/
theorem gen_instrs_contains (il : IList) (fv : Option String)
    (V : String) (hV : V ≠ "")
    (h : (gen_instrs il fv).2 = some V) :
    clistContainsAssign V (gen_instrs il fv).1 = true := by
  cases il with
  | nil => exact absurd h (by simp [gen_instrs])
  | cons i rest =>
      cases rest with
      | nil =>
          have h2 : (if strTruthy (generate_instruction i
                (if strTruthy fv = true then fv else none)).2 = true
              then (generate_instruction i
                (if strTruthy fv = true then fv else none)).2
              else none) = some V := h
          show clistContainsAssign V (.cons (generate_instruction i
            (if strTruthy fv = true then fv else none)).1 .nil) = true
          by_cases ht : strTruthy (generate_instruction i
              (if strTruthy fv = true then fv else none)).2 = true
          · rw [if_pos ht] at h2
            have := generate_instruction_contains i _ V hV h2
            simp [clistContainsAssign, this]
          · rw [if_neg ht] at h2
            exact absurd h2 (by simp)
      | cons j rest2 =>
          have h2 : (if strTruthy (gen_instrs (.cons j rest2) fv).2 = true
              then (gen_instrs (.cons j rest2) fv).2
              else if strTruthy (generate_instruction i none).2 = true
                   then (generate_instruction i none).2 else none) = some V := h
          show clistContainsAssign V (.cons (generate_instruction i none).1
            (gen_instrs (.cons j rest2) fv).1) = true
          by_cases h1 : strTruthy (gen_instrs (.cons j rest2) fv).2 = true
          · rw [if_pos h1] at h2
            have := gen_instrs_contains (.cons j rest2) fv V hV h2
            simp [clistContainsAssign, this]
          · rw [if_neg h1] at h2
            by_cases h3 : strTruthy (generate_instruction i none).2 = true
            · rw [if_pos h3] at h2
              have := generate_instruction_contains i none V hV h2
              simp [clistContainsAssign, this]
            · rw [if_neg h3] at h2
              exact absurd h2 (by simp)
termination_by (sizeOf il, 1)

/-- Any block generated with a nonempty required output variable `V`
contains, somewhere in its emitted text, an assignment to `V` (a forced
assignment, a forced branch/body assignment, or the fallback). -/
theorem generate_block_contains (il : IList) (V : String) (hV : V ≠ "") :
    clistContainsAssign V (generate_block il (some V)).1 = true := by
  show clistContainsAssign V
    (add_fallback (some V) (gen_instrs il (some V))).1 = true
  by_cases hla : (gen_instrs il (some V)).2 = some V
  · rw [add_fallback_no_change V _ hla]
    exact gen_instrs_contains il (some V) V hV hla
  · rw [add_fallback_appends V _ hV hla]
    rw [clistContainsAssign_cappend]
    simp [clistContainsAssign, stmtContainsAssign]
termination_by (sizeOf il, 2)
end

theorem strTruthy_some_ne (s : String) (h : s ≠ "") :
    strTruthy (some s) = true := by
  simp [strTruthy, h]

theorem truthyOpt_some_ne (s : String) (h : s ≠ "") :
    truthyOpt (some s) = some s := by
  simp [truthyOpt, strTruthy, h]

theorem truthyFilter_id (o : Option String)
    (h : o = none ∨ strTruthy o = true) :
    (if strTruthy o = true then o else none) = o := by
  rcases h with h | h
  · simp [h, strTruthy]
  · simp [h]

/-! ### Claim theorems -/

/-- C7.  Compilation is deterministic: in the source, `generate_code` is a
pure function of the parsed JSON (all state is local to one invocation, and
nothing persists between calls), so generating code twice from the same
instruction tree yields byte-identical output text. -/
theorem generation_deterministic (d1 d2 : JsonDoc) (h : d1 = d2) :
    generate_code d1 = generate_code d2 :=
  congrArg generate_code h

theorem generation_deterministic_witness :
    (JsonDoc.obj true none = JsonDoc.obj true none) ∧
    generate_code (JsonDoc.obj true none)
      = generate_code (JsonDoc.obj true none) :=
  ⟨rfl, generation_deterministic (JsonDoc.obj true none)
    (JsonDoc.obj true none) rfl⟩

/-- C8.  An instruction of unrecognized kind produces exactly a comment
naming the kind, reports nothing produced, and the remaining instructions
are still generated: in a block, an unknown instruction contributes its
comment and the rest of the list is generated as usual (the embedding is a
total function — the source raises no exception on this path, it only falls
through to the final `else`). -/
theorem unknown_kind_nonfatal :
    (∀ (t : String) (fv : Option String),
       generate_instruction (.unknown t) fv = (.commentUnknown t, none)) ∧
    (∀ (t : String) (j : Instr) (rest : IList) (fv : Option String),
       gen_instrs (.cons (.unknown t) (.cons j rest)) fv =
         (.cons (.commentUnknown t) (gen_instrs (.cons j rest) fv).1,
          (gen_instrs (.cons j rest) fv).2)) := by
  constructor
  · intro t fv
    rfl
  · intro t j rest fv
    show (CList.cons (CStmt.commentUnknown t) (gen_instrs (.cons j rest) fv).1,
          if strTruthy (gen_instrs (.cons j rest) fv).2 = true
          then (gen_instrs (.cons j rest) fv).2
          else none) = _
    rw [truthyFilter_id _ (gen_instrs_snd_truthy _ _)]

/-- C9.  For an input string that is not syntactically valid JSON,
`json.loads` raises, `parse_json` prints the decode error and returns
`None`, and `compiler` returns at `if not data:` — before the output file
is ever opened, so nothing (not even a partial file) is written, and no
retry exists (the function is called once and simply returns). -/
theorem invalid_json_no_output :
    compiler none =
      { reportedParseError := true, output := none, crashed := false } := rfl

/-- C4.  For `assign` and `call` under a forced variable `F` (a nonempty
name — Python treats `""` like `None`), the emitted statement assigns to
`F`, never to the instruction's own declared name, and `F` is reported as
produced.  Without forcing, a declared name is declared-and-assigned and
reported; a `call` with neither emits a bare call and reports nothing. -/
theorem assign_call_forced_override :
    (∀ (n : String) (v : Value) (F : String), F ≠ "" →
       generate_instruction (.assign n v) (some F)
         = (.assignS F (generate_value v), some F)) ∧
    (∀ (n : Option String) (fn : String) (args : List Value) (F : String),
       F ≠ "" →
       generate_instruction (.call n fn args) (some F)
         = (.assignS F (fn ++ "(" ++ String.intercalate ", "
             (args.map generate_value) ++ ")"), some F)) ∧
    (∀ (n : String) (v : Value),
       generate_instruction (.assign n v) none
         = (.decl n (generate_value v), some n)) ∧
    (∀ (n fn : String) (args : List Value), n ≠ "" →
       generate_instruction (.call (some n) fn args) none
         = (.decl n (fn ++ "(" ++ String.intercalate ", "
             (args.map generate_value) ++ ")"), some n)) ∧
    (∀ (fn : String) (args : List Value),
       generate_instruction (.call none fn args) none
         = (.bare (fn ++ "(" ++ String.intercalate ", "
             (args.map generate_value) ++ ");"), none)) := by
  refine ⟨?_, ?_, ?_, ?_, ?_⟩
  · intro n v F hF
    simp only [generate_instruction]
    rw [truthyOpt_some_ne F hF]
  · intro n fn args F hF
    simp only [generate_instruction]
    rw [truthyOpt_some_ne F hF]
  · intro n v
    rfl
  · intro n fn args hn
    simp only [generate_instruction]
    rw [truthyOpt_some_ne n hn]
    rfl
  · intro fn args
    rfl

theorem assign_call_forced_override_witness :
    ("F" ≠ "" ∧ "n" ≠ "") ∧
    generate_instruction (.assign "n" (.num 7)) (some "F")
      = (.assignS "F" "7", some "F") ∧
    generate_instruction (.call (some "n") "add" [.num 1, .str "y"]) (some "F")
      = (.assignS "F" "add(1, y)", some "F") ∧
    generate_instruction (.assign "n" (.num 7)) none
      = (.decl "n" "7", some "n") ∧
    generate_instruction (.call (some "n") "add" [.num 1, .str "y"]) none
      = (.decl "n" "add(1, y)", some "n") ∧
    generate_instruction (.call none "add" [.num 1, .str "y"]) none
      = (.bare "add(1, y);", none) :=
  ⟨⟨by decide, by decide⟩,
   assign_call_forced_override.1 "n" (.num 7) "F" (by decide),
   assign_call_forced_override.2.1 (some "n") "add" [.num 1, .str "y"] "F"
     (by decide),
   assign_call_forced_override.2.2.1 "n" (.num 7),
   assign_call_forced_override.2.2.2.1 "n" "add" [.num 1, .str "y"] (by decide),
   assign_call_forced_override.2.2.2.2 "add" [.num 1, .str "y"]⟩

/-- C6.  A `for` instruction emits a loop header carrying the declared init
variable with its rendered value, the rendered condition, and the update
text verbatim; the body is generated as a block whose ROV is the
instruction's own forced variable, so the body block is under the
obligation to produce it (third conjunct: the forced body's text contains
an assignment to it); the instruction reports the forced variable when one
was given, else whatever the body block produced. -/
theorem for_loop_generation :
    (∀ (n : String) (v : Value) (c : Cond) (u : String) (body : IList)
       (F : String), F ≠ "" →
       generate_instruction (.forI n v c u body) (some F)
         = (.forS ("uint32_t " ++ n ++ " = " ++ generate_value v ++ ";")
             (generate_condition c) u (generate_block body (some F)).1,
            some F)) ∧
    (∀ (n : String) (v : Value) (c : Cond) (u : String) (body : IList),
       generate_instruction (.forI n v c u body) none
         = (.forS ("uint32_t " ++ n ++ " = " ++ generate_value v ++ ";")
             (generate_condition c) u (generate_block body none).1,
            (generate_block body none).2)) ∧
    (∀ (body : IList) (F : String), F ≠ "" →
       clistContainsAssign F (generate_block body (some F)).1 = true) := by
  refine ⟨?_, ?_, ?_⟩
  · intro n v c u body F hF
    simp only [generate_instruction]
    rw [strTruthy_some_ne F hF]
    rfl
  · intro n v c u body
    rfl
  · intro body F hF
    exact generate_block_contains body F hF

theorem for_loop_generation_witness :
    ("F" ≠ "") ∧
    generate_instruction
        (.forI "i" (.num 0) ⟨.str "i", "<", .num 3⟩ "i++"
          (.cons (.assign "x" (.num 1)) .nil)) (some "F")
      = (.forS "uint32_t i = 0;" "i < 3" "i++"
          (generate_block (.cons (.assign "x" (.num 1)) .nil) (some "F")).1,
         some "F") ∧
    clistContainsAssign "F"
      (generate_block (.cons (.assign "x" (.num 1)) .nil) (some "F")).1
      = true :=
  ⟨by decide,
   for_loop_generation.1 "i" (.num 0) ⟨.str "i", "<", .num 3⟩ "i++"
     (.cons (.assign "x" (.num 1)) .nil) "F" (by decide),
   for_loop_generation.2.2 (.cons (.assign "x" (.num 1)) .nil) "F" (by decide)⟩

/-- C2.  An `if` instruction carrying its own name `N`, generated under a
forced variable `F ≠ N` (both nonempty): the emitted statement declares `N`
(`declVar = some N`, rendered as `uint32_t N;` before the conditional),
generates the then-block and (when present) the else-block each with
ROV `N` — so each generated branch's text contains an assignment to `N`
(second and third conjuncts) — appends exactly the bridging assignment
`F = N;` (`post = some (F, N)`), and reports `N` as produced. -/
theorem if_name_priority_inversion (N F : String) (c : Cond)
    (thn els : IList) (hN : N ≠ "") (hF : F ≠ "") (hFN : F ≠ N) :
    (generate_instruction (.ifI (some N) c thn els) (some F)
      = (.ifS (some N) (generate_condition c) (generate_block thn (some N)).1
          (if isNil els = true then CList.nil
           else (generate_block els (some N)).1)
          (some (F, N)),
         some N)) ∧
    clistContainsAssign N (generate_block thn (some N)).1 = true ∧
    (isNil els = false →
      clistContainsAssign N (generate_block els (some N)).1 = true) := by
  refine ⟨?_, generate_block_contains thn N hN,
    fun _ => generate_block_contains els N hN⟩
  simp only [generate_instruction]
  rw [strTruthy_some_ne N hN, truthyOpt_some_ne F hF, truthyOpt_some_ne N hN]
  simp [hFN, generate_block, truthyOpt_some_ne N hN]

theorem if_name_priority_inversion_witness :
    ("N" ≠ "" ∧ "F" ≠ "" ∧ "F" ≠ "N") ∧
    ((generate_instruction
        (.ifI (some "N") ⟨.str "a", ">", .num 2⟩
          (.cons (.assign "x" (.num 1)) .nil)
          (.cons (.assign "x" (.num 0)) .nil)) (some "F")
      = (.ifS (some "N") "a > 2"
          (.cons (.assignS "N" "1") .nil)
          (.cons (.assignS "N" "0") .nil)
          (some ("F", "N")),
         some "N")) ∧
     clistContainsAssign "N"
       (generate_block (.cons (.assign "x" (.num 1)) .nil) (some "N")).1
       = true ∧
     (isNil (.cons (.assign "x" (.num 0)) IList.nil) = false →
       clistContainsAssign "N"
         (generate_block (.cons (.assign "x" (.num 0)) .nil) (some "N")).1
         = true)) :=
  ⟨⟨by decide, by decide, by decide⟩,
   if_name_priority_inversion "N" "F" ⟨.str "a", ">", .num 2⟩
     (.cons (.assign "x" (.num 1)) .nil)
     (.cons (.assign "x" (.num 0)) .nil)
     (by decide) (by decide) (by decide)⟩

/-- C3.  Block-generation policy.  For a block with last instruction `i`:
with a (nonempty) ROV, every earlier instruction is generated with no
forced variable (`unforcedCode l`), the last is generated with the ROV as
its forced variable, and the fallback `rov = 0;` is appended exactly when
the reported last-produced variable differs from the ROV; with no ROV,
no instruction is forced and no fallback is ever appended; an empty block
with a ROV emits exactly the fallback. -/
theorem generate_block_forcing_policy :
    (∀ (l : IList) (i : Instr) (rov : String), rov ≠ "" →
       generate_block (snocI l i) (some rov)
         = (if (if strTruthy (generate_instruction i (some rov)).2 = true
                then (generate_instruction i (some rov)).2
                else unforcedLast l) ≠ some rov
            then cappend (cappend (unforcedCode l)
                   (.cons (generate_instruction i (some rov)).1 .nil))
                 (.cons (.fallback rov) .nil)
            else cappend (unforcedCode l)
                   (.cons (generate_instruction i (some rov)).1 .nil),
            if strTruthy (generate_instruction i (some rov)).2 = true
            then (generate_instruction i (some rov)).2
            else unforcedLast l)) ∧
    (∀ (l : IList) (i : Instr),
       generate_block (snocI l i) none
         = (cappend (unforcedCode l)
             (.cons (generate_instruction i none).1 .nil),
            if strTruthy (generate_instruction i none).2 = true
            then (generate_instruction i none).2
            else unforcedLast l)) ∧
    (∀ (rov : String), rov ≠ "" →
       generate_block .nil (some rov) = (.cons (.fallback rov) .nil, none)) ∧
    generate_block .nil none = (.nil, none) := by
  refine ⟨?_, ?_, ?_, rfl⟩
  · intro l i rov hrov
    have hfst := gen_instrs_snoc_fst l i (some rov)
    have hsnd := gen_instrs_snoc_snd l i (some rov)
    rw [strTruthy_some_ne rov hrov] at hfst hsnd
    simp only [eq_self_iff_true, if_true] at hfst hsnd
    show add_fallback (some rov) (gen_instrs (snocI l i) (some rov)) = _
    rw [← hsnd, ← hfst]
    by_cases hla : (gen_instrs (snocI l i) (some rov)).2 = some rov
    · rw [add_fallback_no_change rov _ hla]
      simp only [hla, ne_eq, not_true_eq_false, if_false]
      exact Prod.ext rfl hla
    · rw [add_fallback_appends rov _ hrov hla]
      simp [hla]
  · intro l i
    have hfst := gen_instrs_snoc_fst l i none
    have hsnd := gen_instrs_snoc_snd l i none
    simp only [strTruthy] at hfst hsnd
    simp only [Bool.false_eq_true, if_false] at hfst hsnd
    show add_fallback none (gen_instrs (snocI l i) none) = _
    show gen_instrs (snocI l i) none = _
    exact Prod.ext hfst hsnd
  · intro rov hrov
    show add_fallback (some rov) (.nil, none) = _
    rw [add_fallback_appends rov _ hrov (by simp)]
    rfl

theorem generate_block_forcing_policy_witness :
    ("V" ≠ "") ∧
    generate_block (snocI (.cons (.assign "a" (.num 1)) .nil)
        (.call none "f" [])) (some "V")
      = (if (if strTruthy (generate_instruction (.call none "f" [])
                (some "V")).2 = true
             then (generate_instruction (.call none "f" []) (some "V")).2
             else unforcedLast (.cons (.assign "a" (.num 1)) .nil)) ≠ some "V"
         then cappend (cappend (unforcedCode (.cons (.assign "a" (.num 1)) .nil))
                (.cons (generate_instruction (.call none "f" [])
                  (some "V")).1 .nil))
              (.cons (.fallback "V") .nil)
         else cappend (unforcedCode (.cons (.assign "a" (.num 1)) .nil))
                (.cons (generate_instruction (.call none "f" [])
                  (some "V")).1 .nil),
         if strTruthy (generate_instruction (.call none "f" [])
             (some "V")).2 = true
         then (generate_instruction (.call none "f" []) (some "V")).2
         else unforcedLast (.cons (.assign "a" (.num 1)) .nil)) ∧
    generate_block .nil (some "V") = (.cons (.fallback "V") .nil, none) :=
  ⟨by decide,
   generate_block_forcing_policy.1 (.cons (.assign "a" (.num 1)) .nil)
     (.call none "f" []) "V" (by decide),
   generate_block_forcing_policy.2.2.1 "V" (by decide)⟩

/-- C1 (amended).  What the generator actually guarantees for a block given
a (nonempty) required output variable `V`: (1) the generated text always
contains an assignment to `V` somewhere; (2) whenever the block's
instructions do not report producing `V`, the appended fallback `V = 0;`
is an unconditional terminal assignment, so `V` is assigned on every
execution path; (3, 4) when the last instruction is an `assign` or a
`call`, the forced final statement likewise assigns `V` on every path.
(The original claim — an assignment point reachable on every execution
path for *every* ROV block — fails when `V`'s production is reported by an
`if` without an else branch or by a `for` loop; see the counterexample.) -/
theorem rov_assignment_guarantees :
    (∀ (il : IList) (V : String), V ≠ "" →
       clistContainsAssign V (generate_block il (some V)).1 = true) ∧
    (∀ (il : IList) (V : String), V ≠ "" →
       (gen_instrs il (some V)).2 ≠ some V →
       clistAssigns V (generate_block il (some V)).1 = true) ∧
    (∀ (l : IList) (n : String) (v : Value) (V : String), V ≠ "" →
       clistAssigns V
         (generate_block (snocI l (.assign n v)) (some V)).1 = true) ∧
    (∀ (l : IList) (n : Option String) (fn : String) (args : List Value)
       (V : String), V ≠ "" →
       clistAssigns V
         (generate_block (snocI l (.call n fn args)) (some V)).1 = true) := by
  refine ⟨?_, ?_, ?_, ?_⟩
  · intro il V hV
    exact generate_block_contains il V hV
  · intro il V hV hla
    show clistAssigns V
      (add_fallback (some V) (gen_instrs il (some V))).1 = true
    rw [add_fallback_appends V _ hV hla]
    rw [clistAssigns_cappend]
    simp [clistAssigns, stmtAssigns]
  · intro l n v V hV
    have hgi : generate_instruction (.assign n v) (some V)
        = (.assignS V (generate_value v), some V) := by
      simp only [generate_instruction]
      rw [truthyOpt_some_ne V hV]
    have hsnd := gen_instrs_snoc_snd l (.assign n v) (some V)
    rw [strTruthy_some_ne V hV] at hsnd
    simp only [eq_self_iff_true, if_true] at hsnd
    rw [hgi] at hsnd
    simp [strTruthy_some_ne V hV] at hsnd
    have hfst := gen_instrs_snoc_fst l (.assign n v) (some V)
    rw [strTruthy_some_ne V hV] at hfst
    simp only [eq_self_iff_true, if_true] at hfst
    rw [hgi] at hfst
    show clistAssigns V
      (add_fallback (some V) (gen_instrs (snocI l (.assign n v)) (some V))).1
        = true
    rw [add_fallback_no_change V _ hsnd, hfst, clistAssigns_cappend]
    simp [clistAssigns, stmtAssigns]
  · intro l n fn args V hV
    have hgi : generate_instruction (.call n fn args) (some V)
        = (.assignS V (fn ++ "(" ++ String.intercalate ", "
            (args.map generate_value) ++ ")"), some V) := by
      simp only [generate_instruction]
      rw [truthyOpt_some_ne V hV]
    have hsnd := gen_instrs_snoc_snd l (.call n fn args) (some V)
    rw [strTruthy_some_ne V hV] at hsnd
    simp only [eq_self_iff_true, if_true] at hsnd
    rw [hgi] at hsnd
    simp [strTruthy_some_ne V hV] at hsnd
    have hfst := gen_instrs_snoc_fst l (.call n fn args) (some V)
    rw [strTruthy_some_ne V hV] at hfst
    simp only [eq_self_iff_true, if_true] at hfst
    rw [hgi] at hfst
    show clistAssigns V
      (add_fallback (some V)
        (gen_instrs (snocI l (.call n fn args)) (some V))).1 = true
    rw [add_fallback_no_change V _ hsnd, hfst, clistAssigns_cappend]
    simp [clistAssigns, stmtAssigns]

theorem rov_assignment_guarantees_witness :
    ("V" ≠ "") ∧
    clistContainsAssign "V"
      (generate_block (.cons (.call none "f" []) .nil) (some "V")).1 = true ∧
    ((gen_instrs (.cons (.unknown "goto") .nil) (some "V")).2 ≠ some "V" ∧
     clistAssigns "V"
       (generate_block (.cons (.unknown "goto") .nil) (some "V")).1 = true) ∧
    clistAssigns "V"
      (generate_block (snocI .nil (.assign "x" (.num 3))) (some "V")).1
        = true ∧
    clistAssigns "V"
      (generate_block (snocI .nil (.call (some "y") "g" [])) (some "V")).1
        = true :=
  ⟨by decide,
   rov_assignment_guarantees.1 (.cons (.call none "f" []) .nil) "V" (by decide),
   ⟨by decide,
    rov_assignment_guarantees.2.1 (.cons (.unknown "goto") .nil) "V"
      (by decide) (by decide)⟩,
   rov_assignment_guarantees.2.2.1 .nil "x" (.num 3) "V" (by decide),
   rov_assignment_guarantees.2.2.2 .nil (some "y") "g" [] "V" (by decide)⟩

/-- C1 counterexample.  The block `[ if (a > 0) { then: [assign x 1] } ]`
(an `if` with no `name` and no `else`) generated with ROV `"V"`: the
instruction inherits the forcing, declares `uint32_t V;`, assigns `V` only
inside the then-branch, and reports `V` as produced, so no fallback is
appended — the emitted block is `uint32_t V; if (a > 0) { V = 1; }` and
the path on which the condition is false assigns `V` nowhere.  So the
generated text has no assignment point for `V` reachable on every
execution path, and the block does end without a terminal assignment. -/
theorem rov_if_without_else_escapes :
    generate_block
        (.cons (.ifI none ⟨.str "a", ">", .num 0⟩
          (.cons (.assign "x" (.num 1)) .nil) .nil) .nil) (some "V")
      = (.cons (.ifS (some "V") "a > 0"
          (.cons (.assignS "V" "1") .nil) .nil none) .nil, some "V") ∧
    clistCanAvoid "V"
      (generate_block
        (.cons (.ifI none ⟨.str "a", ">", .num 0⟩
          (.cons (.assign "x" (.num 1)) .nil) .nil) .nil) (some "V")).1
      = true ∧
    clistAssigns "V"
      (generate_block
        (.cons (.ifI none ⟨.str "a", ">", .num 0⟩
          (.cons (.assign "x" (.num 1)) .nil) .nil) .nil) (some "V")).1
      = false :=
  ⟨rfl, rfl, rfl⟩

/-- C5.  The assembler's return statement, in order of preference:
(a) the variable reported by the entry block's generation pass (run with no
ROV); (b) failing that, the backward scan `find_final_variable` over the
top-level list; (c) failing both, `return 0;`.  (A reported or scanned
variable is used when truthy, i.e. a nonempty name.) -/
theorem final_variable_fallback_chain :
    (∀ (p : IList) (v : String), v ≠ "" →
       (generate_block p none).2 = some v →
       generate_cpp_main p =
         "int main() \x7b\n" ++ renderCList (generate_block p none).1 ++ "\n"
           ++ ("    return " ++ v ++ ";\n") ++ "\x7d\n") ∧
    (∀ (p : IList) (v : String), v ≠ "" →
       (generate_block p none).2 = none → find_final_variable p = some v →
       generate_cpp_main p =
         "int main() \x7b\n" ++ renderCList (generate_block p none).1 ++ "\n"
           ++ ("    return " ++ v ++ ";\n") ++ "\x7d\n") ∧
    (∀ (p : IList),
       (generate_block p none).2 = none → find_final_variable p = none →
       generate_cpp_main p =
         "int main() \x7b\n" ++ renderCList (generate_block p none).1 ++ "\n"
           ++ ("    return 0;\n") ++ "\x7d\n") := by
  refine ⟨?_, ?_, ?_⟩
  · intro p v hv h
    simp only [generate_cpp_main, h, strTruthy_some_ne v hv,
      eq_self_iff_true, if_true, truthyOpt_some_ne v hv]
  · intro p v hv h hf
    simp only [generate_cpp_main, h, hf, strTruthy, Bool.false_eq_true,
      if_false, truthyOpt_some_ne v hv]
  · intro p h hf
    simp only [generate_cpp_main, h, hf, strTruthy, Bool.false_eq_true,
      if_false, truthyOpt]

theorem final_variable_fallback_chain_witness :
    (("x" ≠ "" ∧
      (generate_block (.cons (.assign "x" (.num 1)) .nil) none).2 = some "x") ∧
     generate_cpp_main (.cons (.assign "x" (.num 1)) .nil) =
       "int main() \x7b\n"
         ++ renderCList (generate_block (.cons (.assign "x" (.num 1)) .nil)
              none).1 ++ "\n"
         ++ ("    return x;\n") ++ "\x7d\n") ∧
    (((generate_block .nil none).2 = none ∧ find_final_variable .nil = none) ∧
     generate_cpp_main .nil =
       "int main() \x7b\n" ++ renderCList (generate_block .nil none).1 ++ "\n"
         ++ ("    return 0;\n") ++ "\x7d\n") :=
  ⟨⟨⟨by decide, by decide⟩,
    final_variable_fallback_chain.1 (.cons (.assign "x" (.num 1)) .nil) "x"
      (by decide) (by decide)⟩,
   ⟨⟨by decide, by decide⟩,
    final_variable_fallback_chain.2.2 .nil (by decide) (by decide)⟩⟩

/-- C10 (amended).  A syntactically valid JSON document parsing to a falsy
value (empty object, empty array, `0`, `null`, …) makes `compiler` return
at `if not data:` with no output file and no error.  Conversely, a *truthy
object* produces an output file — with no `"program"` member the file is
the preamble plus an entry function that just returns zero, and with a
well-formed `"program"` list it is the preamble plus the generated `main` —
but a truthy *non-object* document does not produce a file: `generate_code`
crashes on `json_data.get` (see the counterexample). -/
theorem falsy_doc_and_object_output :
    (∀ d : JsonDoc, docTruthy d = false →
       compiler (some d) =
         { reportedParseError := false, output := none, crashed := false }) ∧
    (compiler (some (.obj true none)) =
       { reportedParseError := false,
         output := some (generate_cpp_preamble ++ generate_cpp_main .nil),
         crashed := false }) ∧
    (∀ (other : Bool) (il : IList),
       compiler (some (.obj other (some (.instrs il)))) =
         { reportedParseError := false,
           output := some (generate_cpp_preamble ++ generate_cpp_main il),
           crashed := false }) ∧
    (generate_cpp_main .nil =
       "int main() \x7b\n" ++ "\n" ++ "    return 0;\n" ++ "\x7d\n") := by
  refine ⟨?_, rfl, ?_, rfl⟩
  · intro d h
    simp [compiler, parse_json, h]
  · intro other il
    simp [compiler, parse_json, docTruthy, generate_code]

theorem falsy_doc_and_object_output_witness :
    (docTruthy (JsonDoc.obj false none) = false ∧
     compiler (some (JsonDoc.obj false none)) =
       { reportedParseError := false, output := none, crashed := false }) ∧
    compiler (some (JsonDoc.obj false
        (some (.instrs (.cons (.assign "x" (.num 1)) .nil))))) =
      { reportedParseError := false,
        output := some (generate_cpp_preamble
          ++ generate_cpp_main (.cons (.assign "x" (.num 1)) .nil)),
        crashed := false } :=
  ⟨⟨by decide, falsy_doc_and_object_output.1 (JsonDoc.obj false none)
      (by decide)⟩,
   falsy_doc_and_object_output.2.2.1 false
     (.cons (.assign "x" (.num 1)) .nil)⟩

/-- C10 counterexample.  The JSON document `5` (any truthy non-object,
modelled by `JsonDoc.nonObj true`) is truthy, yet `compiler` produces no
output file: `generate_code` evaluates `json_data.get("program", [])` on a
non-dict and raises an uncaught AttributeError before the output file is
opened.  So "any truthy JSON document produces an output file" is false. -/
theorem truthy_nonobject_no_output :
    docTruthy (JsonDoc.nonObj true) = true ∧
    compiler (some (JsonDoc.nonObj true)) =
      { reportedParseError := false, output := none, crashed := true } :=
  ⟨rfl, rfl⟩

end Compiler
